import Mathlib

/-!
Verification of tristanpoland/S3-Consistancy-Test (Rust).

Shallow embedding conventions:
* Rust `u64` / `usize` values are modelled as `Nat`; where Rust wrapping
  arithmetic can overflow (release-profile semantics), the operation is
  taken modulo `2 ^ 64` explicitly.
* Rust `f64` arithmetic on the small decimal constants involved
  (percentile fractions, success rates) is modelled exactly over `ℚ`;
  `as usize` on a non-negative float is truncation toward zero, i.e.
  `Int.toNat ∘ Int.floor` (Rust float-to-int casts saturate below zero,
  which `Int.toNat` matches).
* `chrono::DateTime<Utc>` timestamps are modelled by their signed
  millisecond value (`Int`); `signed_duration_since` followed by
  `num_milliseconds` is integer subtraction, and `as u64` on the
  resulting `i64` is reduction modulo `2 ^ 64`.
* Async functions doing S3 I/O are modelled as pure functions over an
  oracle giving the outcome of each storage call, with the mutable
  tracked-file list passed explicitly.
-/

namespace S3Test

/-- The modulus of Rust `u64` arithmetic. -/
def U64_MOD : Nat := 2 ^ 64

namespace statistics

/-- Embedding of `calculate_median` (src/statistics.rs, lines 122-137).
Indexing with `[]` in Rust panics out of bounds; every index used here is
in bounds, so it is modelled with `List.getD _ 0`.  The sum `mid1 + mid2`
is a `u64` addition, so it is taken modulo `2 ^ 64` (release-profile
wrapping; a debug build would panic on overflow instead, and in either
profile the exact average is not returned once the sum overflows). -/
def calculate_median (sorted_durations : List Nat) : Option Nat :=
  if sorted_durations = [] then
    none
  else
    let len := sorted_durations.length
    if len % 2 = 0 then
      let mid1 := sorted_durations.getD (len / 2 - 1) 0
      let mid2 := sorted_durations.getD (len / 2) 0
      some (((mid1 + mid2) % U64_MOD) / 2)
    else
      some (sorted_durations.getD (len / 2) 0)

/-- Embedding of `calculate_percentile` (src/statistics.rs, lines 160-183)
with the rank product `(percentile / 100.0) * (len as f64)` idealized as
exact rational arithmetic.  This idealization is faithful at the fixed
literals 95 and 99 at which calculate_statistics and the main.rs
comparison call it (the f64 double rounding changes no ceiling there for
any realizable length), but not at every f64 percentile:
`calculate_percentile_f64` below models the two IEEE-754 roundings of
the rank and is the model used for the fully quantified claim about this
function.  `rank.ceil() as usize` followed by `saturating_sub(1)`
becomes `Int.toNat ⌈rank⌉ - 1` with truncated `Nat` subtraction. -/
def calculate_percentile (sorted_durations : List Nat) (percentile : ℚ) :
    Option Nat :=
  if sorted_durations = [] ∨ percentile < 0 ∨ 100 < percentile then
    none
  else
    let len := sorted_durations.length
    if percentile = 0 then
      sorted_durations.head?
    else if percentile = 100 then
      sorted_durations.getLast?
    else
      let rank : ℚ := percentile / 100 * (len : ℚ)
      let index := (⌈rank⌉).toNat - 1
      let index := min index (len - 1)
      sorted_durations.get? index

/-- Round-to-nearest with ties to even of a rational to an integer, the
tie-breaking rule of IEEE-754 default rounding. -/
def roundHalfEven (s : ℚ) : ℤ :=
  if s - ⌊s⌋ < 1 / 2 then ⌊s⌋
  else if 1 / 2 < s - ⌊s⌋ then ⌊s⌋ + 1
  else if 2 ∣ ⌊s⌋ then ⌊s⌋ else ⌊s⌋ + 1

/-- IEEE-754 binary64 rounding (round-to-nearest, ties-to-even) of a
positive rational in the normal range: the 53-bit significand of the
binade given by Int.log 2 is rounded half-to-even.  Every value arising
in calculate_percentile lies well inside the normal finite range, so
overflow and subnormals need no modelling; non-positive inputs (unused)
are mapped to 0. -/
def roundF64 (q : ℚ) : ℚ :=
  if q ≤ 0 then 0
  else (roundHalfEven (q * 2 ^ ((52 : ℤ) - Int.log 2 q)) : ℚ) *
    2 ^ (Int.log 2 q - 52)

/-- Embedding of `calculate_percentile` (src/statistics.rs, lines
160-183) with the f64 rank computation modelled faithfully: the argument
`percentile` is the exact value of the f64 input, and
`(percentile / 100.0) * (len as f64)` performs two IEEE-754 roundings
(the division and the product; `len as f64` is exact for every
realizable length).  The comparisons with 0 and 100 and `rank.ceil()`
are exact f64 operations, and `as usize` plus `saturating_sub(1)` become
`Int.toNat ⌈rank⌉ - 1` with truncated `Nat` subtraction. -/
def calculate_percentile_f64 (sorted_durations : List Nat)
    (percentile : ℚ) : Option Nat :=
  if sorted_durations = [] ∨ percentile < 0 ∨ 100 < percentile then
    none
  else
    let len := sorted_durations.length
    if percentile = 0 then
      sorted_durations.head?
    else if percentile = 100 then
      sorted_durations.getLast?
    else
      let rank : ℚ := roundF64 (roundF64 (percentile / 100) * (len : ℚ))
      let index := (⌈rank⌉).toNat - 1
      let index := min index (len - 1)
      sorted_durations.get? index

end statistics

namespace types

/-- Embedding of the TestResult structure (src/types.rs, lines 143-186).
Timestamps (chrono DateTime values) are modelled by their signed
millisecond value. -/
structure TestResult where
  file_key : String
  upload_time : Int
  first_read_success_time : Option Int
  propagation_duration_ms : Option Nat
  total_attempts : Nat
  success : Bool
  error_details : Option String

/-- Rust `as u64` applied to an i64: two's-complement reinterpretation,
i.e. reduction modulo 2^64 to a non-negative value. -/
def i64_as_u64 (d : Int) : Nat := (d % (U64_MOD : Int)).toNat

/-- Embedding of TestResult::success (src/types.rs, lines 201-220); named
mkSuccess because `success` is also a field of the structure.  The
duration is first_read_success_time.signed_duration_since(upload_time)
.num_milliseconds() as u64, i.e. the signed difference reduced mod 2^64.
Fields in order: file_key, upload_time, first_read_success_time,
propagation_duration_ms, total_attempts, success, error_details. -/
def TestResult.mkSuccess (file_key : String) (upload_time : Int)
    (first_read_success_time : Int) (total_attempts : Nat) : TestResult :=
  ⟨file_key, upload_time, some first_read_success_time,
    some (i64_as_u64 (first_read_success_time - upload_time)),
    total_attempts, true, none⟩

/-- Embedding of TestResult::failure (src/types.rs, lines 233-247); named
mkFailure because of the field-name clash with `success`. -/
def TestResult.mkFailure (file_key : String) (upload_time : Int)
    (error_details : String) : TestResult :=
  ⟨file_key, upload_time, none, none, 0, false, some error_details⟩

/-- The invariant asserted by claim C5: success is true exactly when both
first_read_success_time and propagation_duration_ms are present, and a
failed result carries neither. -/
def resultInvariant (r : TestResult) : Prop :=
  (r.success = true ↔
    (r.first_read_success_time.isSome ∧ r.propagation_duration_ms.isSome)) ∧
  (r.success = false →
    r.propagation_duration_ms = none ∧ r.first_read_success_time = none)

end types

namespace statistics

/-- Embedding of the ConsistencyStatistics structure (src/types.rs,
lines 257-299).  The two f64 fields (success_rate and the average) are
modelled over ℚ. -/
structure ConsistencyStatistics where
  successful_tests : Nat
  failed_tests : Nat
  success_rate : ℚ
  min_propagation_time_ms : Option Nat
  max_propagation_time_ms : Option Nat
  avg_propagation_time_ms : Option ℚ
  median_propagation_time_ms : Option Nat
  percentile_95_ms : Option Nat
  percentile_99_ms : Option Nat

/-- Embedding of calculate_statistics (src/statistics.rs, lines 29-101).
unwrap() on the filtered results is always on a some, modelled by
`Option.getD _ 0`; sort_unstable is modelled by insertion sort (only the
sorted result matters); the u64 running sum feeding the f64 average is
taken modulo 2^64.  Fields in constructor order as in the structure. -/
def calculate_statistics (results : List types.TestResult) :
    ConsistencyStatistics :=
  if results.isEmpty then
    ⟨0, 0, 0, none, none, none, none, none, none⟩
  else
    let successful_results := results.filter
      (fun r => r.success && r.propagation_duration_ms.isSome)
    let successful_tests := successful_results.length
    let failed_tests := results.length - successful_tests
    let success_rate : ℚ :=
      (successful_tests : ℚ) / (results.length : ℚ) * 100
    if successful_results.isEmpty then
      ⟨successful_tests, failed_tests, success_rate,
        none, none, none, none, none, none⟩
    else
      let durations := (successful_results.map
        (fun r => r.propagation_duration_ms.getD 0)).insertionSort (· ≤ ·)
      ⟨successful_tests, failed_tests, success_rate,
        durations.head?, durations.getLast?,
        some (((durations.sum % U64_MOD : Nat) : ℚ) / (durations.length : ℚ)),
        calculate_median durations,
        calculate_percentile durations 95,
        calculate_percentile durations 99⟩

end statistics

namespace mainStats

/-- Embedding of the inline 95th-percentile computation in main.rs
(S3ConsistencyTester::calculate_statistics, line 395):
durations.get((durations.len() as f64 * 0.95) as usize).copied().
The f64 literal 0.95 is modelled by the exact rational 95/100; for every
list length small enough to exist in memory the f64 product rounds to the
same floor as the exact rational product, so the model is faithful.
`as usize` truncates toward zero (saturating at 0), i.e. Int.toNat of the
floor. -/
def percentile_95_ms (durations : List Nat) : Option Nat :=
  durations.get? (⌊(durations.length : ℚ) * (95 / 100)⌋).toNat

/-- Embedding of the inline 99th-percentile computation in main.rs
(line 396), as percentile_95_ms with the f64 literal 0.99. -/
def percentile_99_ms (durations : List Nat) : Option Nat :=
  durations.get? (⌊(durations.length : ℚ) * (99 / 100)⌋).toNat

end mainStats

namespace cleanup

/-- Embedding of CleanupManager::register_file (src/cleanup.rs, lines
74-78): Vec::push appends the key at the end of the tracked list. -/
def register_file (active_files : List String) (file_key : String) :
    List String :=
  active_files ++ [file_key]

/-- Embedding of CleanupManager::unregister_file (src/cleanup.rs, lines
94-98): Vec::retain keeps exactly the entries different from the key. -/
def unregister_file (active_files : List String) (file_key : String) :
    List String :=
  active_files.filter (fun f => !(f == file_key))

/-- Embedding of CleanupManager::active_file_count (src/cleanup.rs, lines
223-226). -/
def active_file_count (active_files : List String) : Nat :=
  active_files.length

/-- Embedding of CleanupManager::get_active_files (src/cleanup.rs, lines
245-248): returns a snapshot (clone) of the tracked list. -/
def get_active_files (active_files : List String) : List String :=
  active_files

/-- The `for attempt in 1..=3` loop of CleanupManager::cleanup_file
(src/cleanup.rs, lines 127-149), with `delete_ok attempt` the outcome of
bucket.delete_object on that attempt.  `remaining` counts the attempts
still allowed (structural fuel, 3 at entry, so `remaining = 0` inside the
body means the current attempt is the third and last: failure then falls
through without sleeping).  Returns the tracked list after the call, the
number of delete attempts made, and the number of 1-second sleeps taken.
The Rust function returns () in all cases: no error is propagated, which
the result type reflects. -/
def cleanup_file_loop (delete_ok : Nat → Bool) (file_key : String)
    (active_files : List String) :
    Nat → Nat → Nat → List String × Nat × Nat
  | 0, attempt, sleeps => (active_files, attempt - 1, sleeps)
  | remaining + 1, attempt, sleeps =>
    if delete_ok attempt then
      (unregister_file active_files file_key, attempt, sleeps)
    else if remaining = 0 then
      (active_files, attempt, sleeps)
    else
      cleanup_file_loop delete_ok file_key active_files remaining
        (attempt + 1) (sleeps + 1)

/-- Embedding of CleanupManager::cleanup_file (src/cleanup.rs, lines
123-150): runs the retry loop starting at attempt 1 with 3 attempts
allowed and no sleeps taken yet. -/
def cleanup_file (delete_ok : Nat → Bool) (file_key : String)
    (active_files : List String) : List String × Nat × Nat :=
  cleanup_file_loop delete_ok file_key active_files 3 1 0

/-- Embedding of CleanupManager::emergency_cleanup (src/cleanup.rs, lines
172-206): takes a snapshot of the tracked list, returns early when it is
empty, otherwise issues one delete per snapshotted key (recorded with its
outcome, no retries) and unconditionally clears the list.  Returns the
tracked list after the call and the (key, outcome) pairs of the delete
calls issued; the Rust function returns () and never fails. -/
def emergency_cleanup (delete_ok : String → Bool)
    (active_files : List String) : List String × List (String × Bool) :=
  let snapshot := get_active_files active_files
  if snapshot.isEmpty then
    (active_files, [])
  else
    (([] : List String),
      snapshot.map (fun file_key => (file_key, delete_ok file_key)))

end cleanup

namespace tester

/-- Outcome of one timed read attempt in test_read_consistency
(src/tester.rs, line 359): the get_object call succeeded, returned an
error, or hit the 5-second timeout wrapper. -/
inductive ReadOutcome where
  | ok : ReadOutcome
  | readErr : ReadOutcome
  | timedOut : ReadOutcome
deriving DecidableEq

/-- The polling loop of S3ConsistencyTester::test_read_consistency
(src/tester.rs, lines 355-396).  `read k` is the outcome of the k-th read
attempt and `elapsed_ms k` the value of start_time.elapsed() (in ms) at
the deadline check after the k-th failed attempt; max_ms is the outer
deadline.  On success the loop returns Ok with the attempt count; when
the deadline has passed after a failed or timed-out attempt it returns
the timeout error carrying the attempt count; otherwise it sleeps the
check interval (counted in the second component) and loops.  `fuel`
bounds the number of modelled iterations (none = fuel exhausted). -/
def poll_loop (read : Nat → ReadOutcome) (elapsed_ms : Nat → Nat)
    (max_ms : Nat) : Nat → Nat → Nat → Option (Except Nat Nat × Nat)
  | 0, _, _ => none
  | fuel + 1, attempts, sleeps =>
    match read (attempts + 1) with
    | ReadOutcome.ok => some (Except.ok (attempts + 1), sleeps)
    | _ =>
      if max_ms ≤ elapsed_ms (attempts + 1) then
        some (Except.error (attempts + 1), sleeps)
      else
        poll_loop read elapsed_ms max_ms fuel (attempts + 1) (sleeps + 1)

/-- Embedding of S3ConsistencyTester::test_read_consistency
(src/tester.rs, lines 346-397): max_duration = max_wait seconds, loop
from zero attempts and zero sleeps. -/
def test_read_consistency (read : Nat → ReadOutcome)
    (elapsed_ms : Nat → Nat) (max_wait_s : Nat) (fuel : Nat) :
    Option (Except Nat Nat × Nat) :=
  poll_loop read elapsed_ms (max_wait_s * 1000) fuel 0 0

end tester

end S3Test

namespace S3Test

/-- In-bounds `get?` returns exactly the `getD _ 0` element. -/
theorem get?_eq_some_getD (l : List Nat) (k : Nat) (h : k < l.length) :
    l.get? k = some (l.getD k 0) := by
  rw [List.getD_eq_getElem?_getD, List.get?_eq_getElem?,
    List.getElem?_eq_getElem h]
  rfl

/-- Int.log 2 is characterized by the binade bounds. -/
theorem log2_eq_of_bounds (q : ℚ) (e : ℤ) (h0 : 0 < q)
    (hlo : (2 : ℚ) ^ e ≤ q) (hhi : q < (2 : ℚ) ^ (e + 1)) :
    Int.log 2 q = e := by
  have h1 : e ≤ Int.log 2 q := by
    have hm := Int.log_mono_right (b := 2)
      (zpow_pos (by norm_num : (0 : ℚ) < 2) e) hlo
    rwa [show ((2 : ℚ) ^ e) = ((2 : ℕ) : ℚ) ^ e by norm_num,
      Int.log_zpow (by norm_num : 1 < 2)] at hm
  have h2 : Int.log 2 q ≤ e := by
    by_contra hc
    push_neg at hc
    have hstep : (2 : ℚ) ^ (e + 1) ≤ (2 : ℚ) ^ (Int.log 2 q) := by
      apply zpow_le_zpow_right₀ (by norm_num : (1 : ℚ) ≤ 2)
      omega
    have hself : ((2 : ℕ) : ℚ) ^ (Int.log 2 q) ≤ q :=
      Int.zpow_log_le_self (by norm_num) h0
    push_cast at hself
    linarith
  omega

/-- Unfolding of roundF64 once the binade of the input is known. -/
theorem roundF64_eq_of (q : ℚ) (e : ℤ) (h0 : 0 < q)
    (hlo : (2 : ℚ) ^ e ≤ q) (hhi : q < (2 : ℚ) ^ (e + 1)) :
    statistics.roundF64 q =
      (statistics.roundHalfEven (q * 2 ^ ((52 : ℤ) - e)) : ℚ) *
        2 ^ (e - 52) := by
  rw [statistics.roundF64, if_neg (not_le.mpr h0),
    log2_eq_of_bounds q e h0 hlo hhi]

/-- fl(95/100): the double nearest 0.95 lies just below it. -/
theorem roundF64_95_div_100 :
    statistics.roundF64 (95 / 100) = 8556839292003942 / 2 ^ 53 := by
  rw [roundF64_eq_of (95 / 100) (-1) (by norm_num) (by norm_num)
    (by norm_num)]
  rw [show (95 / 100 : ℚ) * 2 ^ ((52 : ℤ) - (-1)) =
    42784196460019712 / 5 by norm_num]
  have hf : ⌊(42784196460019712 / 5 : ℚ)⌋ = 8556839292003942 := by
    rw [Int.floor_eq_iff]
    norm_num
  rw [statistics.roundHalfEven, hf]
  norm_num

/-- fl(fl(95/100) * 5) is exactly 19/4: the product rounds back up to
4.75, so the 95th-percentile rank at n = 5 is unchanged by rounding. -/
theorem roundF64_rank95_len5 :
    statistics.roundF64 (statistics.roundF64 (95 / 100) * 5) = 19 / 4 := by
  rw [roundF64_95_div_100]
  rw [show (8556839292003942 / 2 ^ 53 : ℚ) * 5 =
    21392098230009855 / 2 ^ 52 by norm_num]
  rw [roundF64_eq_of _ 2 (by norm_num) (by norm_num) (by norm_num)]
  rw [show (21392098230009855 / 2 ^ 52 : ℚ) * 2 ^ ((52 : ℤ) - 2) =
    21392098230009855 / 4 by norm_num]
  have hf : ⌊(21392098230009855 / 4 : ℚ)⌋ = 5348024557502463 := by
    rw [Int.floor_eq_iff]
    norm_num
  rw [statistics.roundHalfEven, hf]
  norm_num

/-- fl(99/100): the double nearest 0.99 lies just below it. -/
theorem roundF64_99_div_100 :
    statistics.roundF64 (99 / 100) = 8917127262193582 / 2 ^ 53 := by
  rw [roundF64_eq_of (99 / 100) (-1) (by norm_num) (by norm_num)
    (by norm_num)]
  rw [show (99 / 100 : ℚ) * 2 ^ ((52 : ℤ) - (-1)) =
    222928181554839552 / 25 by norm_num]
  have hf : ⌊(222928181554839552 / 25 : ℚ)⌋ = 8917127262193582 := by
    rw [Int.floor_eq_iff]
    norm_num
  rw [statistics.roundHalfEven, hf]
  norm_num

/-- fl(fl(99/100) * 5): the 99th-percentile rank at n = 5 is a double
slightly above 4.95, whose ceiling is still 5. -/
theorem roundF64_rank99_len5 :
    statistics.roundF64 (statistics.roundF64 (99 / 100) * 5) =
      5573204538870989 / 2 ^ 50 := by
  rw [roundF64_99_div_100]
  rw [show (8917127262193582 / 2 ^ 53 : ℚ) * 5 =
    22292818155483955 / 2 ^ 52 by norm_num]
  rw [roundF64_eq_of _ 2 (by norm_num) (by norm_num) (by norm_num)]
  rw [show (22292818155483955 / 2 ^ 52 : ℚ) * 2 ^ ((52 : ℤ) - 2) =
    22292818155483955 / 4 by norm_num]
  have hf : ⌊(22292818155483955 / 4 : ℚ)⌋ = 5573204538870988 := by
    rw [Int.floor_eq_iff]
    norm_num
  rw [statistics.roundHalfEven, hf]
  norm_num

/-- fl(p0/100) for the representable double
p0 = 4691249611844267 * 2^-47 = 33.333333333333336: the quotient rounds
up. -/
theorem roundF64_p0_div_100 :
    statistics.roundF64 ((4691249611844267 / 2 ^ 47) / 100) =
      6004799503160662 / 2 ^ 54 := by
  rw [roundF64_eq_of _ (-2) (by norm_num) (by norm_num) (by norm_num)]
  rw [show ((4691249611844267 / 2 ^ 47 : ℚ) / 100) *
    2 ^ ((52 : ℤ) - (-2)) = 150119987579016544 / 25 by norm_num]
  have hf : ⌊(150119987579016544 / 25 : ℚ)⌋ = 6004799503160661 := by
    rw [Int.floor_eq_iff]
    norm_num
  rw [statistics.roundHalfEven, hf]
  norm_num

/-- fl(fl(p0/100) * 3) is exactly 1: the scaled significand lands on a
half-integer and the tie-to-even rule rounds it down to 2^52, so the
double rounding collapses the rank to 1.0 although the exact rank
p0/100 * 3 is strictly above 1. -/
theorem roundF64_rankp0_len3 :
    statistics.roundF64
      (statistics.roundF64 ((4691249611844267 / 2 ^ 47) / 100) * 3) = 1 := by
  rw [roundF64_p0_div_100]
  rw [show (6004799503160662 / 2 ^ 54 : ℚ) * 3 =
    9007199254740993 / 2 ^ 53 by norm_num]
  rw [roundF64_eq_of _ 0 (by norm_num) (by norm_num) (by norm_num)]
  rw [show (9007199254740993 / 2 ^ 53 : ℚ) * 2 ^ ((52 : ℤ) - 0) =
    9007199254740993 / 2 by norm_num]
  have hf : ⌊(9007199254740993 / 2 : ℚ)⌋ = 4503599627370496 := by
    rw [Int.floor_eq_iff]
    norm_num
  rw [statistics.roundHalfEven, hf]
  norm_num

/-- Claim C1, amended: for a non-empty ascending-sorted list of length n
and an f64 percentile 0 < p < 100, calculate_percentile returns the
element at index min(max(ceil(rank) - 1, 0), n - 1) where rank is the
double-rounded f64 product fl(fl(p/100) * n) - not the exact
p/100 * n of the original claim, from which the rounded rank can differ
(counterexample spec_c1_cex); the max-with-0 is the truncated Nat
subtraction below, and the index is in bounds.  p = 0 returns the first
element, p = 100 the last, and on [100,200,300,400,500] both p = 95 and
p = 99 still give 500: there the double rounding moves no ceiling. -/
theorem spec_c1 (l : List Nat) (p : ℚ) (hne : l ≠ [])
    (hsorted : List.Sorted (· ≤ ·) l) (hp0 : 0 < p) (hp1 : p < 100) :
    (statistics.calculate_percentile_f64 l p =
        l.get? (min ((⌈statistics.roundF64 (statistics.roundF64 (p / 100) *
          (l.length : ℚ))⌉).toNat - 1) (l.length - 1)) ∧
      min ((⌈statistics.roundF64 (statistics.roundF64 (p / 100) *
        (l.length : ℚ))⌉).toNat - 1) (l.length - 1) < l.length) ∧
    statistics.calculate_percentile_f64 l 0 = l.head? ∧
    statistics.calculate_percentile_f64 l 100 = l.getLast? ∧
    statistics.calculate_percentile_f64 [100, 200, 300, 400, 500] 95 =
      some 500 ∧
    statistics.calculate_percentile_f64 [100, 200, 300, 400, 500] 99 =
      some 500 := by
  have hguard : ¬(l = [] ∨ p < 0 ∨ 100 < p) := by
    push_neg
    exact ⟨hne, le_of_lt hp0, le_of_lt hp1⟩
  refine ⟨⟨?_, ?_⟩, ?_, ?_, ?_, ?_⟩
  · rw [statistics.calculate_percentile_f64, if_neg hguard, if_neg hp0.ne',
      if_neg hp1.ne]
  · exact Nat.lt_of_le_of_lt (Nat.min_le_right _ _)
      (Nat.sub_lt (List.length_pos.mpr hne) one_pos)
  · have hg : ¬(l = [] ∨ (0 : ℚ) < 0 ∨ (100 : ℚ) < 0) := by
      push_neg
      exact ⟨hne, le_refl 0, by norm_num⟩
    rw [statistics.calculate_percentile_f64, if_neg hg, if_pos rfl]
  · have hg : ¬(l = [] ∨ (100 : ℚ) < 0 ∨ (100 : ℚ) < 100) := by
      push_neg
      exact ⟨hne, by norm_num, le_refl 100⟩
    rw [statistics.calculate_percentile_f64, if_neg hg,
      if_neg (by norm_num : ¬(100 : ℚ) = 0), if_pos rfl]
  · have hc : (⌈(19 : ℚ) / 4⌉) = 5 := by
      rw [Int.ceil_eq_iff]; norm_num
    rw [statistics.calculate_percentile_f64, if_neg (by decide),
      if_neg (by norm_num), if_neg (by norm_num)]
    simp [roundF64_rank95_len5, hc]
  · have hc : (⌈(5573204538870989 : ℚ) / 2 ^ 50⌉) = 5 := by
      rw [Int.ceil_eq_iff]; norm_num
    rw [statistics.calculate_percentile_f64, if_neg (by decide),
      if_neg (by norm_num), if_neg (by norm_num)]
    simp [roundF64_rank99_len5, hc]

/-- Counterexample to C1 as stated: p0 = 4691249611844267 * 2^-47 =
33.333333333333336 is a valid f64 in (0, 100) (its significand fits in
53 bits), and on the sorted list [100, 200, 300] the program's double
rounding gives rank fl(fl(p0/100) * 3) = 1.0 exactly, so the code
returns the element at index 0, namely 100 - while the claim's exact
formula min(max(ceil(p0/100 * 3) - 1, 0), 2) = 1 selects 200 (the value
the exact-rational idealization calculate_percentile also returns).
100 and 200 differ, refuting the universally quantified claim. -/
theorem spec_c1_cex :
    statistics.calculate_percentile_f64 [100, 200, 300]
      (4691249611844267 / 2 ^ 47) = some 100 ∧
    [100, 200, 300].get?
      (min ((⌈(4691249611844267 / 2 ^ 47 : ℚ) / 100 * 3⌉).toNat - 1)
        (3 - 1)) = some 200 ∧
    statistics.calculate_percentile [100, 200, 300]
      (4691249611844267 / 2 ^ 47) = some 200 ∧
    (0 : ℚ) < 4691249611844267 / 2 ^ 47 ∧
    (4691249611844267 / 2 ^ 47 : ℚ) < 100 ∧
    (4691249611844267 : ℚ) < 2 ^ 53 ∧
    (100 : Nat) ≠ 200 := by
  have hc : (⌈(4691249611844267 / 2 ^ 47 : ℚ) / 100 * 3⌉) = 2 := by
    rw [Int.ceil_eq_iff]
    norm_num
  refine ⟨?_, ?_, ?_, by norm_num, by norm_num, by norm_num, by norm_num⟩
  · have h1 : (⌈(1 : ℚ)⌉) = 1 := Int.ceil_one
    rw [statistics.calculate_percentile_f64,
      if_neg (by push_neg; exact ⟨by decide, by norm_num, by norm_num⟩),
      if_neg (by norm_num), if_neg (by norm_num)]
    simp [roundF64_rankp0_len3, h1]
  · rw [hc]
    decide
  · rw [statistics.calculate_percentile,
      if_neg (by push_neg; exact ⟨by decide, by norm_num, by norm_num⟩),
      if_neg (by norm_num), if_neg (by norm_num)]
    simp [hc]

/-- Claim C2, amended: calculate_median returns None on the empty list and
the exact central element for odd length; for even length it returns the
truncating integer average of the two central elements computed with the
wrapping u64 sum (mid1 + mid2 mod 2^64), which coincides with the true
truncating average whenever that sum does not overflow u64.  The concrete
cases of the claim hold. -/
theorem spec_c2 (l : List Nat) (hne : l ≠ [])
    (hsorted : List.Sorted (· ≤ ·) l) :
    (l.length % 2 = 1 →
      statistics.calculate_median l = l.get? (l.length / 2) ∧
        l.length / 2 < l.length) ∧
    (l.length % 2 = 0 →
      statistics.calculate_median l =
        some (((l.getD (l.length / 2 - 1) 0 + l.getD (l.length / 2) 0) %
          U64_MOD) / 2)) ∧
    (l.length % 2 = 0 →
      l.getD (l.length / 2 - 1) 0 + l.getD (l.length / 2) 0 < U64_MOD →
      statistics.calculate_median l =
        some ((l.getD (l.length / 2 - 1) 0 + l.getD (l.length / 2) 0) / 2)) ∧
    statistics.calculate_median [] = none ∧
    statistics.calculate_median [100, 200, 300, 400, 500] = some 300 ∧
    statistics.calculate_median [100, 200, 300, 400] = some 250 := by
  have hlen : 0 < l.length := List.length_pos.mpr hne
  refine ⟨?_, ?_, ?_, by decide, by decide, by decide⟩
  · intro hodd
    rw [statistics.calculate_median, if_neg hne, if_neg (by omega)]
    exact ⟨(get?_eq_some_getD l (l.length / 2)
      (Nat.div_lt_self hlen one_lt_two)).symm,
      Nat.div_lt_self hlen one_lt_two⟩
  · intro heven
    rw [statistics.calculate_median, if_neg hne, if_pos heven]
  · intro heven hnoflow
    rw [statistics.calculate_median, if_neg hne, if_pos heven]
    show some ((l.getD (l.length / 2 - 1) 0 + l.getD (l.length / 2) 0) %
      U64_MOD / 2) = _
    rw [Nat.mod_eq_of_lt hnoflow]

/-- Witness for C2 at l = [100,200,300,400]. -/
theorem spec_c2_check :
    statistics.calculate_median [100, 200, 300, 400] = some 250 :=
  (spec_c2 [100, 200, 300, 400] (by decide)
    (by norm_num [List.Sorted, List.pairwise_cons])).2.2.2.2.2

/-- Counterexample to C2 as stated: on the ascending-sorted even-length
list [2^63, 2^63] the code returns some 0 (the u64 sum of the two central
elements wraps to 0 before the division), while the truncating integer
average of the two central elements is 2^63. -/
theorem spec_c2_cex :
    statistics.calculate_median
        [9223372036854775808, 9223372036854775808] = some 0 ∧
    (9223372036854775808 + 9223372036854775808) / 2 =
      (9223372036854775808 : Nat) ∧
    (9223372036854775808 : Nat) ≠ 0 :=
  ⟨by decide, by norm_num, by norm_num⟩

/-- Witness for C1 at l = [100,200,300,400,500], p = 95. -/
theorem spec_c1_check :
    statistics.calculate_percentile_f64 [100, 200, 300, 400, 500] 95 =
      [100, 200, 300, 400, 500].get?
        (min ((⌈statistics.roundF64 (statistics.roundF64 ((95 : ℚ) / 100) *
          (([100, 200, 300, 400, 500] : List Nat).length : ℚ))⌉).toNat - 1)
          (([100, 200, 300, 400, 500] : List Nat).length - 1)) :=
  (spec_c1 [100, 200, 300, 400, 500] 95 (by decide)
    (by norm_num [List.Sorted, List.pairwise_cons]) (by norm_num)
    (by norm_num)).1.1

/-- Claim C3: cleanup_file makes at most 3 delete attempts; on the first
successful attempt - whichever of the 3 it is - it unregisters the key
and stops, having made exactly that many attempts (no sleeps before
attempt 1, one before attempt 2, two before attempt 3); if all 3
attempts fail the tracked list is unchanged (so the key stays
registered) and exactly 2 one-second sleeps were taken - between
attempts, never after the final one.  The function's result type carries
no error: nothing is propagated to the caller in any case. -/
theorem spec_c3 (delete_ok : Nat → Bool) (file_key : String)
    (s : List String) :
    (cleanup.cleanup_file delete_ok file_key s).2.1 ≤ 3 ∧
    (delete_ok 1 = true →
      cleanup.cleanup_file delete_ok file_key s =
        (cleanup.unregister_file s file_key, 1, 0)) ∧
    (delete_ok 1 = false → delete_ok 2 = true →
      cleanup.cleanup_file delete_ok file_key s =
        (cleanup.unregister_file s file_key, 2, 1)) ∧
    (delete_ok 1 = false → delete_ok 2 = false → delete_ok 3 = true →
      cleanup.cleanup_file delete_ok file_key s =
        (cleanup.unregister_file s file_key, 3, 2)) ∧
    (delete_ok 1 = false → delete_ok 2 = false → delete_ok 3 = false →
      cleanup.cleanup_file delete_ok file_key s = (s, 3, 2)) := by
  cases h1 : delete_ok 1 <;> cases h2 : delete_ok 2 <;>
    cases h3 : delete_ok 3 <;>
    simp [cleanup.cleanup_file, cleanup.cleanup_file_loop, h1, h2, h3]

/-- Witness for C3: delete fails on attempt 1 and succeeds on attempt 2;
the key is unregistered, 2 attempts were made, one sleep taken. -/
theorem spec_c3_check :
    cleanup.cleanup_file (fun n => n == 2) "k1" ["k1", "k2"] =
      (cleanup.unregister_file ["k1", "k2"] "k1", 2, 1) :=
  (spec_c3 (fun n => n == 2) "k1" ["k1", "k2"]).2.2.1 rfl rfl

/-- Claim C4: emergency_cleanup leaves zero tracked files for every prior
tracker state and every pattern of delete outcomes, and issues exactly
one delete per snapshotted key (in snapshot order, no retries); in
particular with 3 registered keys whose deletes all fail, the tracked
list is still cleared.  Its result type carries no error. -/
theorem spec_c4 (delete_ok : String → Bool) (s : List String) :
    (cleanup.emergency_cleanup delete_ok s).1.length = 0 ∧
    (cleanup.emergency_cleanup delete_ok s).2.map Prod.fst = s ∧
    (cleanup.emergency_cleanup (fun _ => false)
      ["k1", "k2", "k3"]).1.length = 0 := by
  refine ⟨?_, ?_, by decide⟩ <;>
    cases hs : s.isEmpty <;>
    simp_all [cleanup.emergency_cleanup, cleanup.get_active_files,
      List.isEmpty_iff, Function.comp_def]

/-- Claim C5: both TestResult constructors establish the invariant that
success is true exactly when first_read_success_time and
propagation_duration_ms are both present, and a failed result has
neither. -/
theorem spec_c5 (k : String) (u t : Int) (a : Nat) (e : String) :
    types.resultInvariant (types.TestResult.mkSuccess k u t a) ∧
    types.resultInvariant (types.TestResult.mkFailure k u e) := by
  constructor <;>
    simp [types.resultInvariant, types.TestResult.mkSuccess,
      types.TestResult.mkFailure]

/-- Witness for C5 at concrete constructor arguments. -/
theorem spec_c5_check :
    types.resultInvariant (types.TestResult.mkSuccess "k" 0 5 1) ∧
    types.resultInvariant (types.TestResult.mkFailure "k" 0 "err") :=
  spec_c5 "k" 0 5 1 "err"

/-- Claim C7: with max_wait = 0, a first read attempt that does not
succeed makes the loop fail immediately with the timeout error carrying
attempt count 1, after exactly that one attempt and zero sleeps; and in
general, after any failed or timed-out attempt the loop re-checks the
outer deadline before sleeping: if the deadline has passed it returns the
timeout error with the current attempt count and the sleeps taken so
far (so it neither sleeps again nor attempts again). -/
theorem spec_c7 (read : Nat → tester.ReadOutcome) (elapsed_ms : Nat → Nat)
    (fuel attempts sleeps max_ms : Nat)
    (hfail : read 1 ≠ tester.ReadOutcome.ok) (hfuel : 1 ≤ fuel) :
    tester.test_read_consistency read elapsed_ms 0 fuel =
      some (Except.error 1, 0) ∧
    (read (attempts + 1) ≠ tester.ReadOutcome.ok →
      max_ms ≤ elapsed_ms (attempts + 1) →
      tester.poll_loop read elapsed_ms max_ms fuel attempts sleeps =
        some (Except.error (attempts + 1), sleeps)) := by
  obtain ⟨f, rfl⟩ : ∃ f, fuel = f + 1 :=
    ⟨fuel - 1, (Nat.succ_pred_eq_of_pos hfuel).symm⟩
  constructor
  · rw [tester.test_read_consistency]
    cases h : read 1 with
    | ok => exact absurd h hfail
    | readErr =>
      rw [tester.poll_loop]
      simp [h, Nat.zero_le]
    | timedOut =>
      rw [tester.poll_loop]
      simp [h, Nat.zero_le]
  · intro hf hdl
    cases h : read (attempts + 1) with
    | ok => exact absurd h hf
    | readErr =>
      rw [tester.poll_loop]
      simp [h, hdl]
    | timedOut =>
      rw [tester.poll_loop]
      simp [h, hdl]

/-- Witness for C7: every attempt errors, max_wait = 0, fuel 5: exactly
one attempt, timeout error with attempt count 1, no sleep. -/
theorem spec_c7_check :
    tester.test_read_consistency (fun _ => tester.ReadOutcome.readErr)
      (fun _ => 0) 0 5 = some (Except.error 1, 0) :=
  (spec_c7 (fun _ => tester.ReadOutcome.readErr) (fun _ => 0) 5 0 0 0
    (by decide) (by norm_num)).1

/-- Claim C8: register_file appends the key (membership holds and the
count grows by one); repeated registration is idempotent at the level of
the set of tracked keys; unregister_file removes every occurrence of the
key and is a no-op (reporting nothing) when the key is absent; and the
concrete scenario: after registering k1 then k2 the count is 2, after
unregistering k1 the count is 1 and the snapshot is [k2]. -/
theorem spec_c8 (s : List String) (k : String) :
    (k ∈ cleanup.register_file s k ∧
      (cleanup.register_file s k).length = s.length + 1) ∧
    (cleanup.register_file (cleanup.register_file s k) k).toFinset =
      (cleanup.register_file s k).toFinset ∧
    k ∉ cleanup.unregister_file s k ∧
    (k ∉ s → cleanup.unregister_file s k = s) ∧
    cleanup.active_file_count
      (cleanup.register_file (cleanup.register_file [] "k1") "k2") = 2 ∧
    cleanup.active_file_count
      (cleanup.unregister_file
        (cleanup.register_file (cleanup.register_file [] "k1") "k2")
        "k1") = 1 ∧
    cleanup.get_active_files
      (cleanup.unregister_file
        (cleanup.register_file (cleanup.register_file [] "k1") "k2")
        "k1") = ["k2"] := by
  refine ⟨⟨?_, ?_⟩, ?_, ?_, ?_, by decide, by decide, by decide⟩
  · simp [cleanup.register_file]
  · simp [cleanup.register_file]
  · ext a
    simp [cleanup.register_file]
  · simp [cleanup.unregister_file, List.mem_filter]
  · intro hk
    apply List.filter_eq_self.mpr
    intro a ha
    simp only [Bool.not_eq_eq_eq_not, Bool.not_true, beq_eq_false_iff_ne,
      ne_eq]
    exact fun he => hk (he ▸ ha)

/-- Witness for C8: unregistering an absent key leaves the list as is. -/
theorem spec_c8_check :
    cleanup.unregister_file ["a", "b"] "c" = ["a", "b"] :=
  (spec_c8 ["a", "b"] "c").2.2.2.1 (by decide)

/-- Claim C6: successful_tests + failed_tests always equals the number of
results, success_rate is 100 * successes / total (exact over the rational
model of the f64 arithmetic, hence within floating-point tolerance) and
0 for the empty list, and with zero successes-with-duration all six
timing fields are None while the counts and rate are still computed. -/
theorem spec_c6 (results : List types.TestResult) :
    (statistics.calculate_statistics results).successful_tests +
      (statistics.calculate_statistics results).failed_tests =
      results.length ∧
    (statistics.calculate_statistics results).success_rate =
      (if results.length = 0 then 0 else
        100 * ((results.filter (fun r =>
          r.success && r.propagation_duration_ms.isSome)).length : ℚ) /
          (results.length : ℚ)) ∧
    ((results.filter (fun r =>
        r.success && r.propagation_duration_ms.isSome)).length = 0 →
      (statistics.calculate_statistics results).min_propagation_time_ms =
          none ∧
      (statistics.calculate_statistics results).max_propagation_time_ms =
          none ∧
      (statistics.calculate_statistics results).avg_propagation_time_ms =
          none ∧
      (statistics.calculate_statistics results).median_propagation_time_ms =
          none ∧
      (statistics.calculate_statistics results).percentile_95_ms = none ∧
      (statistics.calculate_statistics results).percentile_99_ms = none) := by
  cases hres : results.isEmpty
  · have hne : ¬results.isEmpty = true := by simp [hres]
    have hlen : results.length ≠ 0 := by
      simpa [List.isEmpty_iff, List.length_eq_zero] using hres
    rw [statistics.calculate_statistics, if_neg hne]
    by_cases hsucc : (results.filter (fun r =>
      r.success && r.propagation_duration_ms.isSome)).isEmpty
    · rw [if_pos hsucc]
      refine ⟨?_, ?_, fun _ => ⟨rfl, rfl, rfl, rfl, rfl, rfl⟩⟩
      · exact Nat.add_sub_cancel' (List.length_filter_le _ _)
      · rw [if_neg hlen]
        show ((results.filter _).length : ℚ) / (results.length : ℚ) * 100 = _
        ring
    · rw [if_neg hsucc]
      refine ⟨?_, ?_, fun h0 => absurd (by simpa [List.isEmpty_iff,
        List.length_eq_zero] using h0) hsucc⟩
      · exact Nat.add_sub_cancel' (List.length_filter_le _ _)
      · rw [if_neg hlen]
        show ((results.filter _).length : ℚ) / (results.length : ℚ) * 100 = _
        ring
  · have : results = [] := List.isEmpty_iff.mp hres
    subst this
    simp [statistics.calculate_statistics]

/-- Witness for C6 at the empty result list. -/
theorem spec_c6_check :
    (statistics.calculate_statistics
      ([] : List types.TestResult)).min_propagation_time_ms = none :=
  ((spec_c6 []).2.2 (by simp)).1

/-- Shared bridge for C10: when p/100 * n is not an integer, the floor
indexing of main.rs agrees with the nearest-rank ceil indexing of
statistics.rs. -/
theorem percentile_nonint_eq (l : List Nat) (p : ℚ) (hp0 : 0 < p)
    (hp1 : p < 100) (hne : l ≠ [])
    (hni : ∀ z : ℤ, (z : ℚ) ≠ p / 100 * (l.length : ℚ)) :
    l.get? (⌊(l.length : ℚ) * (p / 100)⌋).toNat =
      statistics.calculate_percentile l p := by
  have hlen : 0 < l.length := List.length_pos.mpr hne
  set q : ℚ := p / 100 * (l.length : ℚ) with hq
  have hq0 : 0 < q := by
    apply mul_pos (div_pos hp0 (by norm_num))
    exact_mod_cast hlen
  have hqlt : q < (l.length : ℚ) := by
    have h1 : p / 100 < 1 := (div_lt_one (by norm_num)).mpr hp1
    have h2 : p / 100 * (l.length : ℚ) < 1 * (l.length : ℚ) :=
      mul_lt_mul_of_pos_right h1 (by exact_mod_cast hlen)
    simpa using h2
  have hfl0 : 0 ≤ ⌊q⌋ := Int.floor_nonneg.mpr hq0.le
  have hfllt : ⌊q⌋ < (l.length : ℤ) := by
    rw [Int.floor_lt]
    exact_mod_cast hqlt
  have hceil : ⌈q⌉ = ⌊q⌋ + 1 := by
    have h1 : (⌊q⌋ : ℚ) < q := lt_of_le_of_ne (Int.floor_le q) (hni ⌊q⌋)
    have h2 : ⌈q⌉ ≤ ⌊q⌋ + 1 := by
      apply Int.ceil_le.mpr
      have := Int.lt_floor_add_one q
      push_cast
      linarith
    have h3 : ⌊q⌋ < ⌈q⌉ := by
      have hc : (⌊q⌋ : ℚ) < (⌈q⌉ : ℚ) := lt_of_lt_of_le h1 (Int.le_ceil q)
      exact_mod_cast hc
    omega
  have hguard : ¬(l = [] ∨ p < 0 ∨ 100 < p) := by
    push_neg
    exact ⟨hne, hp0.le, hp1.le⟩
  rw [statistics.calculate_percentile, if_neg hguard, if_neg hp0.ne',
    if_neg hp1.ne]
  show l.get? (⌊(l.length : ℚ) * (p / 100)⌋).toNat =
    l.get? (min ((⌈p / 100 * ((l.length : Nat) : ℚ)⌉).toNat - 1)
      (l.length - 1))
  rw [mul_comm ((l.length : Nat) : ℚ) (p / 100)]
  rw [show ⌈p / 100 * ((l.length : Nat) : ℚ)⌉ = ⌊q⌋ + 1 from hceil]
  rw [← hq]
  congr 1
  omega

/-- Claim C10, amended: the inline main.rs percentile indexing agrees
with statistics.rs calculate_percentile at p = 95 whenever the list
length is not a multiple of 20, and at p = 99 whenever it is not a
multiple of 100; at lengths where p/100 * n is an integer the two pick
adjacent indices (n*p/100 versus n*p/100 - 1) and can differ, as the
counterexample shows. -/
theorem spec_c10 (l : List Nat) (hne : l ≠ [])
    (hsorted : List.Sorted (· ≤ ·) l) :
    (¬(20 ∣ l.length) →
      mainStats.percentile_95_ms l = statistics.calculate_percentile l 95) ∧
    (¬(100 ∣ l.length) →
      mainStats.percentile_99_ms l = statistics.calculate_percentile l 99) := by
  constructor
  · intro hnd
    rw [mainStats.percentile_95_ms]
    apply percentile_nonint_eq l 95 (by norm_num) (by norm_num) hne
    intro z hz
    apply hnd
    have h1 : (20 : ℚ) * z = 19 * (l.length : ℚ) := by
      field_simp at hz
      linarith
    have h2 : (20 : ℤ) * z = 19 * (l.length : ℤ) := by exact_mod_cast h1
    have hz0 : 0 ≤ z := by omega
    have h3 : (20 : ℕ) ∣ l.length * 19 := ⟨z.toNat, by omega⟩
    exact (Nat.coprime_iff_gcd_eq_one.mpr (by norm_num)).dvd_of_dvd_mul_right h3
  · intro hnd
    rw [mainStats.percentile_99_ms]
    apply percentile_nonint_eq l 99 (by norm_num) (by norm_num) hne
    intro z hz
    apply hnd
    have h1 : (100 : ℚ) * z = 99 * (l.length : ℚ) := by
      field_simp at hz
      linarith
    have h2 : (100 : ℤ) * z = 99 * (l.length : ℤ) := by exact_mod_cast h1
    have hz0 : 0 ≤ z := by omega
    have h3 : (100 : ℕ) ∣ l.length * 99 := ⟨z.toNat, by omega⟩
    exact (Nat.coprime_iff_gcd_eq_one.mpr (by norm_num)).dvd_of_dvd_mul_right h3

/-- Witness for C10 at the 3-element list [10,20,30]. -/
theorem spec_c10_check :
    mainStats.percentile_95_ms [10, 20, 30] =
      statistics.calculate_percentile [10, 20, 30] 95 :=
  (spec_c10 [10, 20, 30] (by decide)
    (by norm_num [List.Sorted, List.pairwise_cons])).1 (by decide)

/-- Counterexample to C10 as stated: on the ascending-sorted 20-element
list 1..20, main.rs indexes at floor(20 * 0.95) = 19 giving 20, while
statistics.rs nearest-rank indexes at ceil(95/100 * 20) - 1 = 18 giving
19. -/
theorem spec_c10_cex :
    mainStats.percentile_95_ms
        [1, 2, 3, 4, 5, 6, 7, 8, 9, 10,
          11, 12, 13, 14, 15, 16, 17, 18, 19, 20] ≠
      statistics.calculate_percentile
        [1, 2, 3, 4, 5, 6, 7, 8, 9, 10,
          11, 12, 13, 14, 15, 16, 17, 18, 19, 20] 95 ∧
    mainStats.percentile_95_ms
        [1, 2, 3, 4, 5, 6, 7, 8, 9, 10,
          11, 12, 13, 14, 15, 16, 17, 18, 19, 20] = some 20 ∧
    statistics.calculate_percentile
        [1, 2, 3, 4, 5, 6, 7, 8, 9, 10,
          11, 12, 13, 14, 15, 16, 17, 18, 19, 20] 95 = some 19 := by
  have hfl : ⌊(20 : ℚ) * (95 / 100)⌋ = 19 := by
    rw [Int.floor_eq_iff]
    norm_num
  have hc : ⌈(95 : ℚ) / 100 * 20⌉ = 19 := by
    rw [Int.ceil_eq_iff]
    norm_num
  have hmain : mainStats.percentile_95_ms
      [1, 2, 3, 4, 5, 6, 7, 8, 9, 10,
        11, 12, 13, 14, 15, 16, 17, 18, 19, 20] = some 20 := by
    rw [mainStats.percentile_95_ms]
    simp [hfl]
  have hstat : statistics.calculate_percentile
      [1, 2, 3, 4, 5, 6, 7, 8, 9, 10,
        11, 12, 13, 14, 15, 16, 17, 18, 19, 20] 95 = some 19 := by
    rw [statistics.calculate_percentile, if_neg (by decide),
      if_neg (by norm_num), if_neg (by norm_num)]
    simp [hc]
  refine ⟨?_, hmain, hstat⟩
  rw [hmain, hstat]
  decide

/-- Claim C9 fails on the code: at the failing input upload_time = 1000,
first_read_success_time = 0 (the read-success timestamp 1 second before
the upload timestamp, as clock skew can produce), the signed difference
is -1000 ms, but the constructor casts it to u64, storing
2^64 - 1000 - not the difference, whose true value is negative.  The
stored value disagrees with the claimed difference. -/
theorem spec_c9_bug :
    types.TestResult.propagation_duration_ms
        (types.TestResult.mkSuccess "clock-skew" 1000 0 1) =
      some (U64_MOD - 1000) ∧
    ((0 : Int) - 1000 < 0) ∧
    ((U64_MOD - 1000 : Nat) : Int) ≠ (0 : Int) - 1000 := by
  refine ⟨?_, by norm_num, ?_⟩
  · show some (types.i64_as_u64 (0 - 1000)) = _
    rw [types.i64_as_u64]
    norm_num [U64_MOD]
    rfl
  · rw [U64_MOD]
    norm_num

end S3Test
